import Mathlib

/-!
Verification of the incremental BSP traversal worker
(`src/grape/worker/ingress_sync_traversal_worker.h`).

The worker orchestrates two phases: a batch fixed-point loop (`Query`,
lines 235-351) and an incremental adjust (`deltaCompute`, lines 80-233)
that resets the dependency subtree of deleted edges, rebuilds the
fragment, and resumes the batch loop.

The embedding below translates the worker's control flow directly from
the source.  The external collaborators that the worker consumes (the
traversal kernel, the message-manager façade, the incremental fragment
builder) are not part of the repository source; they are modelled from
the specification (§4.4, §6.1, §6.2) and marked as such.  The embedding
is the single-worker instantiation: a worker holding one fragment, with
no inbound messages (`inbox = []` at every round), which is a legitimate
deployment covered by the specification's universally quantified
properties.
-/

namespace SumInc

/-- Global vertex id.  The source's `vid_t`; also used as the local
vertex handle (the fragment keeps a bijection between handles and gids,
and the builder preserves it over inner vertices, so identifying the two
is faithful). -/
abbrev Gid := Nat

/-- Modelled from the spec: `delta_t` carries `value : value_t` and a
parent gid (§6.1).  `Delta.reset` is `delta_t::Reset(identity)`: the
value becomes the identity and the recorded parent is dropped. -/
structure Delta (α : Type) where
  value : α
  parent : Option Gid
deriving DecidableEq

/-- Modelled from the spec: `delta_t::Reset(identity)` (§4.6 step 3). -/
def Delta.reset {α : Type} (ident : α) : Delta α := ⟨ident, none⟩

/-- A fragment: one worker's partition of the graph.  Exposes the inner
and outer vertex ranges and the outgoing adjacency (neighbor gid and
edge weight) of every inner vertex (§3, data model). -/
structure Fragment where
  inner : List Gid
  outer : List Gid
  adj : Gid → List (Gid × Nat)

/-- Gids of all locally present vertices (inner and outer): the source's
`local_gid_set` built from `fragment_->Vertices()` (lines 92-96). -/
def localGidSet (frag : Fragment) : List Gid := frag.inner ++ frag.outer

/-- Insertion into a dense vertex set: `DenseVertexSet::Insert`.  The
list stays duplicate-free, so its length is the set's `Count()`. -/
def insertV (s : List Gid) (v : Gid) : List Gid :=
  if v ∈ s then s else s ++ [v]

/-- Modelled from the spec: the message-manager façade (§4.4).
`sent` counts messages enqueued in the current round; `vote` is a
pending `ForceContinue` vote, consumed by the next `FinishARound`;
`quiesced` records whether the previous `FinishARound` saw global
quiescence (no messages in flight and no `ForceContinue` vote), which is
exactly what `ToTerminate` reports. -/
structure MM where
  sent : Nat
  vote : Bool
  quiesced : Bool
deriving DecidableEq

/-- Initial message-manager state (after `Start`). -/
def mm0 : MM := ⟨0, false, false⟩

/-- Modelled from the spec: `StartARound` opens a superstep (§4.4). -/
def startRound (m : MM) : MM := { m with sent := 0 }

/-- Modelled from the spec: `FinishARound` closes the superstep, seeing
quiescence iff no message was sent and no `ForceContinue` vote was cast
before it (§4.4). -/
def finishRound (m : MM) : MM :=
  { sent := m.sent, vote := false, quiesced := m.sent == 0 && !m.vote }

/-- Modelled from the spec: `ForceContinue` casts a "not done" vote
(§4.4). -/
def forceCont (m : MM) : MM := { m with vote := true }

/-- Modelled from the spec: `ToTerminate` is true iff the previous
`FinishARound` saw global quiescence (§4.4). -/
def toTerminate (m : MM) : Bool := m.quiesced

/-- Observable events emitted by the worker, used to state ordering
properties of the control flow. -/
inductive Ev where
  | startRound
  | initChannels
  | finishRound
  | forceContinue
  | send (v : Gid)
  | errLog
  | dcStart
  | ranges (inner : List Gid) (outer : List Gid)
deriving DecidableEq

/-- Modelled from the spec: the traversal-kernel contract (§6.1).  The
worker is polymorphic over `{value_t, Init, AccumulateTo,
CombineValueDelta, Compute, GetIdentityElement, DeltaParentGid}` plus
the state containers; `DeltaParentGid v` is read as `(deltas v).parent`.
`initValues`/`initDeltas`/`initCurr` describe `Init`'s effect on the
state containers (all entries identity, with the app's root seeded). -/
structure Kernel (α : Type) where
  ident : α
  accumulateTo : Gid → Delta α → (Gid → Delta α) → Bool × (Gid → Delta α)
  combine : α → Delta α → Bool × α × Delta α
  compute : Gid → α → Delta α → Fragment → (Gid → Delta α) → List Gid →
      (Gid → Delta α) × List Gid
  initValues : Fragment → Gid → α
  initDeltas : Fragment → Gid → Delta α
  initCurr : Fragment → List Gid

/-- Modelled from the spec: the incremental fragment builder façade
(§6.2).  `deleted` is `GetDeletedEdgesGid()`; `newFrag` is the fragment
returned by `Build()`. -/
structure UpdateInput where
  deleted : List (Gid × Gid)
  newFrag : Fragment

section Worker

variable {α : Type} [DecidableEq α]

/-- One step of the seeding fold of `deltaCompute` (lines 105-120): a
deleted edge `(u_gid, v_gid)` inserts `v` into `curr_modified` iff
`u_gid` is locally present, `v_gid` is an inner gid, and
`DeltaParentGid(v) == u_gid`. -/
def seedStep (frag : Fragment) (deltas : Gid → Delta α)
    (acc : List Gid) (p : Gid × Gid) : List Gid :=
  if p.1 ∈ localGidSet frag ∧ p.2 ∈ frag.inner ∧
      (deltas p.2).parent = some p.1 then
    insertV acc p.2
  else acc

/-- The seeding loop of `deltaCompute` (lines 105-120): builds the
initial `curr_modified` from the deleted-edge list.  Purely local: no
channel operation appears in this block of the source. -/
def seedCurr (frag : Fragment) (deltas : Gid → Delta α)
    (deleted : List (Gid × Gid)) : List Gid :=
  deleted.foldl (seedStep frag deltas) []

/-- State threaded through the incremental reset loop: the kernel's
value/delta arrays, the `curr_modified`/`next_modified` sets, the
`reset_vertices` diagnostic set, and the message manager. -/
structure RState (α : Type) where
  values : Gid → α
  deltas : Gid → Delta α
  curr : List Gid
  next : List Gid
  resetVs : List Gid
  mm : MM

/-- One round of the incremental reset loop (`deltaCompute`,
lines 128-171), in source order: StartARound; drain empty-payload
messages into `curr_modified`; propagate along outgoing edges into
`next_modified` where the neighbor's parent gid matches; reset the
`curr_modified` inner vertices; send empty-payload syncs for the outer
part of `next_modified` and reset those outer deltas; FinishARound;
ForceContinue if `next_modified` is non-empty (note: after
FinishARound); clear-and-swap `curr_modified`/`next_modified`. -/
def resetRound (frag : Fragment) (ident : α) (inbox : List Gid)
    (st : RState α) : RState α × List Ev :=
  let mm1 := startRound st.mm
  let curr1 := inbox.foldl insertV st.curr
  let active := frag.inner.filter (fun u => decide (u ∈ curr1))
  let nx := active.foldl (fun acc u =>
      (frag.adj u).foldl (fun acc2 e =>
        if (st.deltas e.1).parent = some u then insertV acc2 e.1
        else acc2) acc) st.next
  let vs2 := active.foldl (fun f u => Function.update f u ident) st.values
  let ds2 := active.foldl
      (fun f u => Function.update f u (Delta.reset ident)) st.deltas
  let rs2 := active.foldl insertV st.resetVs
  let sendsL := frag.outer.filter (fun v => decide (v ∈ nx))
  let ds3 := sendsL.foldl
      (fun f v => Function.update f v (Delta.reset ident)) ds2
  let mm2 := finishRound { mm1 with sent := sendsL.length }
  let mm3 := if nx.length > 0 then forceCont mm2 else mm2
  (⟨vs2, ds3, nx, [], rs2, mm3⟩,
   Ev.startRound :: (sendsL.map Ev.send ++ [Ev.finishRound] ++
     (if nx.length > 0 then [Ev.forceContinue] else [])))

/-- The do-while driver of the reset loop: repeat `resetRound` until
`ToTerminate()` (line 171).  The fuel bounds the number of rounds; the
returned flag is true iff the loop exited through `ToTerminate` within
the fuel. -/
def resetLoopAux (frag : Fragment) (ident : α) :
    Nat → RState α → RState α × List Ev × Bool
  | 0, st => (st, [], false)
  | fuel + 1, st =>
    if toTerminate (resetRound frag ident [] st).1.mm then
      ((resetRound frag ident [] st).1, (resetRound frag ident [] st).2,
       true)
    else
      ((resetLoopAux frag ident fuel (resetRound frag ident [] st).1).1,
       (resetRound frag ident [] st).2 ++
         (resetLoopAux frag ident fuel
           (resetRound frag ident [] st).1).2.1,
       (resetLoopAux frag ident fuel (resetRound frag ident [] st).1).2.2)

/-- The whole reset phase of `deltaCompute` (lines 92-171): seed
`curr_modified` from the deleted edges, then run the reset loop. -/
def resetPhase (frag : Fragment) (ident : α) (deleted : List (Gid × Gid))
    (dcFuel : Nat) (values : Gid → α) (deltas : Gid → Delta α) (mm : MM) :
    RState α × List Ev × Bool :=
  resetLoopAux frag ident dcFuel ⟨values, deltas,
    seedCurr frag deltas deleted, [], [], mm⟩

/-- Snapshot-and-copy-back of `deltaCompute` (lines 188-210): the inner
vertices of the old fragment keep their value and delta (`values[v] =
snapshot[v]` after `app_->Init` on the new fragment); every other vertex
holds whatever the kernel's `Init` put there. -/
def copyBackState (K : Kernel α) (newFrag : Fragment)
    (oldInner : List Gid) (r : RState α) :
    (Gid → α) × (Gid → Delta α) :=
  (fun v => if v ∈ oldInner then r.values v else K.initValues newFrag v,
   fun v => if v ∈ oldInner then r.deltas v else K.initDeltas newFrag v)

/-- The kickoff iteration of `deltaCompute` (lines 214-221): walk the
(old) inner vertices in order and, whenever the delta value differs from
the identity element, call `Compute` unconditionally — there is no
`CombineValueDelta` gate.  Returns the delta array, the `next_modified`
set, and the list of vertices on which `Compute` was invoked. -/
def kickoffGo (K : Kernel α) (newFrag : Fragment) (values : Gid → α) :
    List Gid → (Gid → Delta α) → List Gid → List Gid →
      (Gid → Delta α) × List Gid × List Gid
  | [], deltas, next, calls => (deltas, next, calls)
  | u :: us, deltas, next, calls =>
    if (deltas u).value ≠ K.ident then
      let r := K.compute u (values u) (deltas u) newFrag deltas next
      kickoffGo K newFrag values us r.1 r.2 (calls ++ [u])
    else kickoffGo K newFrag values us deltas next calls

/-- The outbound-send loop shared by the batch round (lines 300-309) and
the kickoff round (lines 223-230): for every vertex of the outer range
that is in `next_modified`, enqueue its delta via
`SyncStateOnOuterVertex` iff the delta value differs from the identity
element. -/
def sendPhase (K : Kernel α) (outer : List Gid) (deltas : Gid → Delta α)
    (next : List Gid) : List (Gid × Delta α) :=
  (outer.filter (fun v => decide (v ∈ next))).foldl
    (fun acc v =>
      if (deltas v).value ≠ K.ident then acc ++ [(v, deltas v)] else acc)
    []

/-- Result of the kickoff round (lines 212-232). -/
structure KickoffOut (α : Type) where
  deltas : Gid → Delta α
  next : List Gid
  calls : List Gid
  sends : List (Gid × Delta α)
  mm : MM
  evs : List Ev

/-- The kickoff round of `deltaCompute` (lines 212-232): StartARound;
ungated `Compute` over the inner vertices with non-identity delta; send
the non-identity outer deltas; FinishARound. -/
def kickoffPhase (K : Kernel α) (newFrag : Fragment) (oldInner : List Gid)
    (values : Gid → α) (deltas : Gid → Delta α) (mm : MM) : KickoffOut α :=
  let mm1 := startRound mm
  let r := kickoffGo K newFrag values oldInner deltas [] []
  let sends := sendPhase K newFrag.outer r.1 r.2.1
  let mm2 := finishRound { mm1 with sent := sends.length }
  ⟨r.1, r.2.1, r.2.2, sends, mm2,
   Ev.startRound :: (sends.map (fun p => Ev.send p.1) ++ [Ev.finishRound])⟩

/-- State of the `Query` loop: the worker's fragment reference, the
kernel's state containers, the message manager, and the control flags
(`batch_stage` and whether the loop has been exited). -/
structure QState (α : Type) where
  frag : Fragment
  values : Gid → α
  deltas : Gid → Delta α
  curr : List Gid
  next : List Gid
  mm : MM
  batchStage : Bool
  exited : Bool

/-- The reset phase of `deltaCompute` applied to a `Query`-loop state. -/
def dcReset (K : Kernel α) (upd : UpdateInput) (dcFuel : Nat)
    (st : QState α) : RState α × List Ev × Bool :=
  resetPhase st.frag K.ident upd.deleted dcFuel st.values st.deltas st.mm

/-- The snapshot-and-copy-back step of `deltaCompute` applied to a
`Query`-loop state. -/
def dcCopy (K : Kernel α) (upd : UpdateInput) (dcFuel : Nat)
    (st : QState α) : (Gid → α) × (Gid → Delta α) :=
  copyBackState K upd.newFrag st.frag.inner (dcReset K upd dcFuel st).1

/-- The kickoff round of `deltaCompute` applied to a `Query`-loop
state.  The kickoff iterates the old fragment's inner range
(line 214). -/
def dcKickoff (K : Kernel α) (upd : UpdateInput) (dcFuel : Nat)
    (st : QState α) : KickoffOut α :=
  kickoffPhase K upd.newFrag st.frag.inner (dcCopy K upd dcFuel st).1
    (dcCopy K upd dcFuel st).2 (dcReset K upd dcFuel st).1.mm

/-- The whole `deltaCompute` procedure (lines 80-233): reset loop,
fragment replacement, `app_->Init` on the new fragment plus copy-back,
kickoff round, and the final swap that transfers the kickoff's
`next_modified` into the app's `next_modified_` (line 232).
`curr_modified_` holds what the kernel's `Init` seeded. -/
def deltaComputeW (K : Kernel α) (upd : UpdateInput) (dcFuel : Nat)
    (st : QState α) : QState α × List Ev :=
  let r := dcReset K upd dcFuel st
  let c := dcCopy K upd dcFuel st
  let ko := dcKickoff K upd dcFuel st
  (⟨upd.newFrag, c.1, ko.deltas, K.initCurr upd.newFrag, ko.next, ko.mm,
     st.batchStage, st.exited⟩,
   Ev.dcStart :: (r.2.1 ++ ko.evs))

/-- The compute pass of one batch round (lines 284-296): for each
vertex of `curr_modified ∩ inner_vertices` in range order, snapshot the
value, call `CombineValueDelta`, and, if it reports strict improvement,
commit the new value/delta and call `Compute` with the pre-combine
value. -/
def batchGo (K : Kernel α) (frag : Fragment) :
    List Gid → (Gid → α) → (Gid → Delta α) → List Gid →
      (Gid → α) × (Gid → Delta α) × List Gid
  | [], vs, ds, nx => (vs, ds, nx)
  | u :: us, vs, ds, nx =>
    let value := vs u
    let delta := ds u
    let c := K.combine value delta
    if c.1 then
      let vs1 := Function.update vs u c.2.1
      let ds1 := Function.update ds u c.2.2
      let r := K.compute u value c.2.2 frag ds1 nx
      batchGo K frag us vs1 r.1 r.2
    else batchGo K frag us vs ds nx

/-- The drain pass of one batch round (lines 261-269): deliver each
inbound `(v, msg)` through `AccumulateTo` and insert `v` into
`curr_modified` iff the accumulation improved `D[v]`. -/
def drainGo (K : Kernel α) :
    List (Gid × Delta α) → (Gid → Delta α) → List Gid →
      (Gid → Delta α) × List Gid
  | [], ds, curr => (ds, curr)
  | (v, msg) :: rest, ds, curr =>
    let r := K.accumulateTo v msg ds
    if r.1 then drainGo K rest r.2 (insertV curr v)
    else drainGo K rest r.2 curr

/-- The drain pass applied to a `Query`-loop state (lines 261-269). -/
def qDrain (K : Kernel α) (inbox : List (Gid × Delta α)) (st : QState α) :
    (Gid → Delta α) × List Gid :=
  drainGo K inbox st.deltas st.curr

/-- The compute pass of one `Query` round (lines 284-296), over the
current fragment's inner range intersected with the post-drain
`curr_modified`. -/
def qCompute (K : Kernel α) (inbox : List (Gid × Delta α))
    (st : QState α) : (Gid → α) × (Gid → Delta α) × List Gid :=
  batchGo K st.frag
    (st.frag.inner.filter (fun u => decide (u ∈ (qDrain K inbox st).2)))
    st.values (qDrain K inbox st).1 []

/-- The outbound sends of one `Query` round (lines 300-309), over the
current fragment's outer range. -/
def qSends (K : Kernel α) (inbox : List (Gid × Delta α))
    (st : QState α) : List (Gid × Delta α) :=
  sendPhase K st.frag.outer (qCompute K inbox st).2.1
    (qCompute K inbox st).2.2

/-- The message-manager state after one `Query` round: StartARound,
the round's sends, ForceContinue iff `next_modified` is non-empty
(before FinishARound, lines 311-313), then FinishARound (line 317). -/
def qMM (K : Kernel α) (inbox : List (Gid × Delta α)) (st : QState α) :
    MM :=
  finishRound
    (if (qCompute K inbox st).2.2.length > 0 then
      forceCont { startRound st.mm with sent := (qSends K inbox st).length }
    else { startRound st.mm with sent := (qSends K inbox st).length })

/-- The worker state after one round body of the `Query` loop
(lines 252-317): ranges re-read from the current fragment, StartARound,
`next_modified` cleared, drain, gated compute, sends, vote, and
FinishARound. -/
def queryRoundSt (K : Kernel α) (inbox : List (Gid × Delta α))
    (st : QState α) : QState α :=
  ⟨st.frag, (qCompute K inbox st).1, (qCompute K inbox st).2.1,
   (qDrain K inbox st).2, (qCompute K inbox st).2.2, qMM K inbox st,
   st.batchStage, st.exited⟩

/-- The events of one round body of the `Query` loop, in source order:
the ranges are read from the worker's current fragment (lines 254-255),
then StartARound, the sends, the vote (cast before FinishARound) and
FinishARound. -/
def queryRoundEvs (K : Kernel α) (inbox : List (Gid × Delta α))
    (st : QState α) : List Ev :=
  Ev.ranges st.frag.inner st.frag.outer :: Ev.startRound ::
    ((qSends K inbox st).map (fun p => Ev.send p.1) ++
      (if (qCompute K inbox st).2.2.length > 0 then [Ev.forceContinue]
       else []) ++
      [Ev.finishRound])

/-- Swap of `next_modified_` and `curr_modified_` at the foot of the
`Query` loop (line 348). -/
def swapCN (st : QState α) : QState α :=
  { st with curr := st.next, next := st.curr }

/-- One full iteration of the `Query` loop (lines 252-348): the round
body, then `ToTerminate`.  On termination during the batch stage the
worker either runs `deltaCompute` (when an update file is configured)
and continues, or reports the missing configuration (unconditionally,
line 336) and breaks; on termination during the incremental stage it
breaks. -/
def queryIter (K : Kernel α) (upd : Option UpdateInput) (dcFuel : Nat)
    (st : QState α) : QState α × List Ev :=
  if st.exited then (st, [])
  else if toTerminate (queryRoundSt K [] st).mm then
    if (queryRoundSt K [] st).batchStage then
      match upd with
      | some u =>
        (swapCN (deltaComputeW K u dcFuel
            { queryRoundSt K [] st with batchStage := false }).1,
         queryRoundEvs K [] st ++
           (deltaComputeW K u dcFuel
             { queryRoundSt K [] st with batchStage := false }).2)
      | none =>
        ({ queryRoundSt K [] st with batchStage := false, exited := true },
         queryRoundEvs K [] st ++ [Ev.errLog])
    else ({ queryRoundSt K [] st with exited := true },
          queryRoundEvs K [] st)
  else (swapCN (queryRoundSt K [] st), queryRoundEvs K [] st)

/-- The `while (true)` loop of `Query`, bounded by fuel. -/
def queryLoop (K : Kernel α) (upd : Option UpdateInput) (dcFuel : Nat) :
    Nat → QState α → QState α × List Ev
  | 0, st => (st, [])
  | fuel + 1, st =>
    if st.exited then (st, [])
    else
      ((queryLoop K upd dcFuel fuel (queryIter K upd dcFuel st).1).1,
       (queryIter K upd dcFuel st).2 ++
         (queryLoop K upd dcFuel fuel (queryIter K upd dcFuel st).1).2)

/-- The worker state right after `app_->Init(comm_spec_, fragment_)`
(line 239). -/
def initQState (K : Kernel α) (frag : Fragment) : QState α :=
  ⟨frag, K.initValues frag, K.initDeltas frag, K.initCurr frag, [],
   mm0, true, false⟩

/-- The whole `Query` procedure (lines 235-351): initialize the app,
run the initial empty message round (StartARound; InitChannels;
FinishARound, lines 247-250), then the main loop. -/
def queryRun (K : Kernel α) (upd : Option UpdateInput) (dcFuel fuel : Nat)
    (frag : Fragment) : QState α × List Ev :=
  let st0 := initQState K frag
  let st1 := { st0 with mm := finishRound (startRound st0.mm) }
  let r := queryLoop K upd dcFuel fuel st1
  (r.1, Ev.startRound :: Ev.initChannels :: Ev.finishRound :: r.2)

end Worker

/-! ### A concrete kernel instance (single-source shortest paths)

The per-app kernel math is an external collaborator (§1); the SSSP
kernel below is modelled from the spec (§6.1 and scenarios S1-S5):
values are tentative distances in the min-plus monoid, the identity
element ⊥ is "unreachable" (`none`), `Compute` relaxes the outgoing
edges from the current delta, and every strict improvement records the
contributing neighbor as the parent gid. -/

/-- Strict order of the min-semilattice of distances: `none` is the
identity (no information / infinite distance). -/
def oLt : Option Nat → Option Nat → Bool
  | some a, some b => a < b
  | some _, none => true
  | none, _ => false

/-- Adding an edge weight to a tentative distance. -/
def oAdd : Option Nat → Nat → Option Nat
  | some a, w => some (a + w)
  | none, _ => none

/-- One edge relaxation of SSSP `Compute`: a strict improvement of the
neighbor's delta by `delta.value + weight` records `u` as parent and
inserts the neighbor into `next_modified`. -/
def ssspStep (u : Gid) (d : Delta (Option Nat))
    (acc : (Gid → Delta (Option Nat)) × List Gid) (e : Gid × Nat) :
    (Gid → Delta (Option Nat)) × List Gid :=
  if oLt (oAdd d.value e.2) (acc.1 e.1).value then
    (Function.update acc.1 e.1 ⟨oAdd d.value e.2, some u⟩,
     insertV acc.2 e.1)
  else acc

/-- Modelled from the spec: SSSP `Compute` (§6.1): relax each outgoing
edge of `u` with `delta.value + weight`. -/
def ssspCompute (u : Gid) (_val : Option Nat) (d : Delta (Option Nat))
    (frag : Fragment) (deltas : Gid → Delta (Option Nat))
    (next : List Gid) : (Gid → Delta (Option Nat)) × List Gid :=
  (frag.adj u).foldl (ssspStep u d) (deltas, next)

/-- Modelled from the spec: SSSP `CombineValueDelta` (§6.1): advance the
value by the delta iff the delta is strictly smaller; the delta is left
in place ("We don't cleanup delta with identity element", line 288). -/
def ssspCombine (v : Option Nat) (d : Delta (Option Nat)) :
    Bool × Option Nat × Delta (Option Nat) :=
  if oLt d.value v then (true, d.value, d) else (false, v, d)

/-- Modelled from the spec: SSSP `AccumulateTo` (§6.1): merge an inbound
delta message into `D[v]`, reporting strict improvement. -/
def ssspAccumulate (v : Gid) (msg : Delta (Option Nat))
    (deltas : Gid → Delta (Option Nat)) :
    Bool × (Gid → Delta (Option Nat)) :=
  if oLt msg.value (deltas v).value then
    (true, Function.update deltas v msg)
  else (false, deltas)

/-- Modelled from the spec: the SSSP kernel for a given source (§6.1,
scenarios S1-S5): `Init` sets every entry to the identity and seeds the
source with distance 0 (its own parent), activating it. -/
def ssspKernel (source : Gid) : Kernel (Option Nat) :=
  ⟨none,
   ssspAccumulate,
   ssspCombine,
   ssspCompute,
   fun _ _ => none,
   fun _ v => if v = source then ⟨some 0, some source⟩ else ⟨none, none⟩,
   fun _ => [source]⟩

/-! ### Scenario S5: a weight-1 chain with a critical deletion

Spec scenario S5: the graph is the path 1→2→3→4→5 with uniform weight 1
and source 1; the update deletes the edge 2→3.  A single worker holds
the whole graph (no outer vertices).  The spec expects the adjust to
clear vertices 3, 4, 5 (reset count 3) and to end with
V = {1:0, 2:1, 3:⊥, 4:⊥, 5:⊥}. -/

/-- Adjacency of the initial chain 1→2→3→4→5, weight 1. -/
def chainAdj : Gid → List (Gid × Nat)
  | 1 => [(2, 1)]
  | 2 => [(3, 1)]
  | 3 => [(4, 1)]
  | 4 => [(5, 1)]
  | _ => []

/-- Adjacency of the updated chain: edge 2→3 deleted. -/
def chainAdjUpd : Gid → List (Gid × Nat)
  | 1 => [(2, 1)]
  | 3 => [(4, 1)]
  | 4 => [(5, 1)]
  | _ => []

/-- The single worker's fragment holding the whole initial chain. -/
def chainFrag : Fragment := ⟨[1, 2, 3, 4, 5], [], chainAdj⟩

/-- The rebuilt fragment after the update (inner gids preserved, per the
builder contract §6.2). -/
def chainNewFrag : Fragment := ⟨[1, 2, 3, 4, 5], [], chainAdjUpd⟩

/-- The edge-update set of S5: delete 2→3. -/
def chainUpd : UpdateInput := ⟨[(2, 3)], chainNewFrag⟩

/-- The SSSP kernel with source 1. -/
def ssspK : Kernel (Option Nat) := ssspKernel 1

/-- The incremental run: `Query` on the initial chain with the S5
update configured. -/
def incRun : QState (Option Nat) × List Ev :=
  queryRun ssspK (some chainUpd) 8 12 chainFrag

/-- The from-scratch run: `Query` on the updated chain with no update
file configured (batch phase alone). -/
def scratchRun : QState (Option Nat) × List Ev :=
  queryRun ssspK none 8 12 chainNewFrag

/-- The worker state entering `deltaCompute` in the S5 run: the batch
fixed point on the initial chain (the batch phase is shared by the two
configurations, so the no-update run computes it). -/
def c2Entry : QState (Option Nat) := (queryRun ssspK none 8 12 chainFrag).1

/-- The reset phase of `deltaCompute` on the S5 entry state. -/
def c2Reset : RState (Option Nat) × List Ev × Bool :=
  resetPhase chainFrag (none : Option Nat) [(2, 3)] 8
    c2Entry.values c2Entry.deltas c2Entry.mm

/-- Round 1 of the reset loop on the S5 entry state. -/
def c3Round : RState (Option Nat) × List Ev :=
  resetRound chainFrag (none : Option Nat) []
    ⟨c2Entry.values, c2Entry.deltas,
     seedCurr chainFrag c2Entry.deltas [(2, 3)], [], [], c2Entry.mm⟩

/-- A trivial fragment (no vertices), used to exhibit satisfiable
hypotheses of the conditional theorems on concrete inputs. -/
def trivFrag : Fragment := ⟨[], [], fun _ => []⟩

/-- A second trivial fragment, distinguishable from `trivFrag` by its
outer range. -/
def trivFrag2 : Fragment := ⟨[], [7], fun _ => []⟩

/-- A trivial update input rebuilding to `trivFrag2`. -/
def trivUpd : UpdateInput := ⟨[], trivFrag2⟩

/-- A small rebuild target with one inner and one outer vertex. -/
def c6Frag : Fragment := ⟨[1], [2], fun _ => []⟩

/-- A concrete post-reset state feeding the rebuild step. -/
def c6R : RState (Option Nat) :=
  ⟨fun _ => some 5, fun _ => ⟨some 5, some 9⟩, [], [], [], mm0⟩

/-- Vertices whose value is transitively justified through a deleted
edge, following the claim's wording: the parent-gid dependency forest
(at reset entry) is walked from the children of deleted parent edges
along graph edges whose target records the edge's source as parent. -/
inductive TransDep (frag : Fragment) (deltas : Gid → Delta (Option Nat))
    (deleted : List (Gid × Gid)) : Gid → Prop where
  | seed : ∀ u v, (u, v) ∈ deleted → (deltas v).parent = some u →
      TransDep frag deltas deleted v
  | step : ∀ u v, TransDep frag deltas deleted u →
      (∃ w, (v, w) ∈ frag.adj u) → (deltas v).parent = some u →
      TransDep frag deltas deleted v

/-! ### Auxiliary lemmas -/

section Lemmas

variable {α : Type} [DecidableEq α]

theorem mem_insertV (s : List Gid) (w v : Gid) :
    v ∈ insertV s w ↔ v ∈ s ∨ v = w := by
  unfold insertV
  split
  · rename_i h
    exact ⟨Or.inl, fun hv => hv.elim id (fun e => e ▸ h)⟩
  · simp

omit [DecidableEq α] in
theorem mem_seedFold (frag : Fragment) (deltas : Gid → Delta α) :
    ∀ (deleted : List (Gid × Gid)) (init : List Gid) (v : Gid),
      v ∈ deleted.foldl (seedStep frag deltas) init ↔
        v ∈ init ∨ ∃ u, (u, v) ∈ deleted ∧ u ∈ localGidSet frag ∧
          v ∈ frag.inner ∧ (deltas v).parent = some u
  | [], init, v => by simp
  | (a, b) :: rest, init, v => by
    rw [List.foldl_cons, mem_seedFold frag deltas rest]
    constructor
    · rintro (hs | ⟨u, hu, hc⟩)
      · unfold seedStep at hs
        split at hs
        · rename_i hcond
          rcases (mem_insertV _ _ _).1 hs with hv | rfl
          · exact Or.inl hv
          · exact Or.inr ⟨a, List.mem_cons_self _ _, hcond.1, hcond.2.1,
              hcond.2.2⟩
        · exact Or.inl hs
      · exact Or.inr ⟨u, List.mem_cons_of_mem _ hu, hc⟩
    · rintro (hv | ⟨u, hu, h1, h2, h3⟩)
      · left
        unfold seedStep
        split
        · exact (mem_insertV _ _ _).2 (Or.inl hv)
        · exact hv
      · rcases List.mem_cons.1 hu with he | hr
        · obtain ⟨rfl, rfl⟩ : u = a ∧ v = b := Prod.mk.injEq .. ▸ he
          left
          unfold seedStep
          rw [if_pos ⟨h1, h2, h3⟩]
          exact (mem_insertV _ _ _).2 (Or.inr rfl)
        · exact Or.inr ⟨u, hr, h1, h2, h3⟩

theorem mem_sendFold (K : Kernel α) (deltas : Gid → Delta α) :
    ∀ (l : List Gid) (init : List (Gid × Delta α)) (p : Gid × Delta α),
      p ∈ l.foldl
          (fun acc v =>
            if (deltas v).value ≠ K.ident then acc ++ [(v, deltas v)]
            else acc) init ↔
        p ∈ init ∨ ∃ v ∈ l, (deltas v).value ≠ K.ident ∧ p = (v, deltas v)
  | [], init, p => by simp
  | w :: l, init, p => by
    rw [List.foldl_cons, mem_sendFold K deltas l]
    by_cases h : (deltas w).value ≠ K.ident
    · rw [if_pos h]
      constructor
      · rintro (hp | ⟨v, hv, hc, rfl⟩)
        · rcases List.mem_append.1 hp with h1 | h2
          · exact Or.inl h1
          · rcases List.mem_singleton.1 h2 with rfl
            exact Or.inr ⟨w, List.mem_cons_self _ _, h, rfl⟩
        · exact Or.inr ⟨v, List.mem_cons_of_mem _ hv, hc, rfl⟩
      · rintro (hp | ⟨v, hv, hc, rfl⟩)
        · exact Or.inl (List.mem_append_left _ hp)
        · rcases List.mem_cons.1 hv with rfl | hv2
          · exact Or.inl (List.mem_append_right _ (List.mem_singleton.2 rfl))
          · exact Or.inr ⟨v, hv2, hc, rfl⟩
    · rw [if_neg h]
      constructor
      · rintro (hp | ⟨v, hv, hc, rfl⟩)
        · exact Or.inl hp
        · exact Or.inr ⟨v, List.mem_cons_of_mem _ hv, hc, rfl⟩
      · rintro (hp | ⟨v, hv, hc, rfl⟩)
        · exact Or.inl hp
        · rcases List.mem_cons.1 hv with rfl | hv2
          · exact absurd hc h
          · exact Or.inr ⟨v, hv2, hc, rfl⟩

theorem mem_sendPhase (K : Kernel α) (outer : List Gid)
    (deltas : Gid → Delta α) (next : List Gid) (v : Gid) (d : Delta α) :
    (v, d) ∈ sendPhase K outer deltas next ↔
      v ∈ next ∧ v ∈ outer ∧ d = deltas v ∧ d.value ≠ K.ident := by
  unfold sendPhase
  rw [mem_sendFold]
  simp only [List.not_mem_nil, false_or, List.mem_filter,
    decide_eq_true_eq]
  constructor
  · rintro ⟨w, ⟨hwo, hwn⟩, hc, heq⟩
    obtain ⟨rfl, rfl⟩ : v = w ∧ d = deltas w := Prod.mk.injEq .. ▸ heq
    exact ⟨hwn, hwo, rfl, hc⟩
  · rintro ⟨hn, ho, rfl, hc⟩
    exact ⟨v, ⟨ho, hn⟩, hc, rfl⟩

theorem ssspStep_preserves (u : Gid) (d : Delta (Option Nat)) :
    ∀ (l : List (Gid × Nat))
      (acc : (Gid → Delta (Option Nat)) × List Gid) (v : Gid),
      (acc.1 v).value ≠ none → ((l.foldl (ssspStep u d) acc).1 v).value ≠ none
  | [], _, _ => fun h => h
  | e :: rest, acc, v => fun h => by
    rw [List.foldl_cons]
    apply ssspStep_preserves u d rest
    unfold ssspStep
    split
    · rename_i hlt
      show ((Function.update acc.1 e.1
          ⟨oAdd d.value e.2, some u⟩) v).value ≠ none
      rcases eq_or_ne v e.1 with rfl | hne
      · rw [Function.update_same]
        intro hc
        rw [show oAdd d.value e.2 = none from hc] at hlt
        simp [oLt] at hlt
      · rw [Function.update_noteq hne]
        exact h
    · exact h

theorem ssspMono :
    ∀ (u : Gid) (val : Option Nat) (d : Delta (Option Nat)) (f : Fragment)
      (ds : Gid → Delta (Option Nat)) (nx : List Gid) (v : Gid),
      (ds v).value ≠ ssspK.ident →
        ((ssspK.compute u val d f ds nx).1 v).value ≠ ssspK.ident :=
  fun u _val d f ds nx v h => ssspStep_preserves u d (f.adj u) (ds, nx) v h

theorem kickoffGo_calls_mono (K : Kernel α) (nf : Fragment)
    (values : Gid → α) :
    ∀ (us : List Gid) (deltas : Gid → Delta α) (next calls : List Gid)
      (u : Gid), u ∈ calls →
        u ∈ (kickoffGo K nf values us deltas next calls).2.2
  | [], _, _, _, _ => fun h => h
  | u0 :: us, deltas, next, calls, u => fun h => by
    simp only [kickoffGo]
    split
    · exact kickoffGo_calls_mono K nf values us _ _ _ u
        (List.mem_append_left _ h)
    · exact kickoffGo_calls_mono K nf values us _ _ _ u h

theorem kickoffGo_superset (K : Kernel α) (nf : Fragment)
    (values : Gid → α)
    (hmono : ∀ (u : Gid) (val : α) (d : Delta α) (ds : Gid → Delta α)
        (nx : List Gid) (v : Gid),
        (ds v).value ≠ K.ident →
          ((K.compute u val d nf ds nx).1 v).value ≠ K.ident) :
    ∀ (us : List Gid) (deltas : Gid → Delta α) (next calls : List Gid)
      (u : Gid), u ∈ us → (deltas u).value ≠ K.ident →
        u ∈ (kickoffGo K nf values us deltas next calls).2.2
  | [], _, _, _, u => fun h => absurd h (List.not_mem_nil u)
  | u0 :: us, deltas, next, calls, u => fun hu hval => by
    simp only [kickoffGo]
    rcases List.mem_cons.1 hu with rfl | hmem
    · rw [if_pos hval]
      exact kickoffGo_calls_mono K nf values us _ _ _ u
        (List.mem_append_right _ (List.mem_singleton.2 rfl))
    · by_cases hc : (deltas u0).value ≠ K.ident
      · rw [if_pos hc]
        exact kickoffGo_superset K nf values hmono us _ _ _ u hmem
          (hmono u0 (values u0) (deltas u0) deltas next u hval)
      · rw [if_neg hc]
        exact kickoffGo_superset K nf values hmono us _ _ _ u hmem hval

omit [DecidableEq α] in
theorem resetLoopAux_evs (frag : Fragment) (ident : α) (f : Nat)
    (st : RState α) :
    ∃ t, (resetLoopAux frag ident (f + 1) st).2.1 = Ev.startRound :: t := by
  unfold resetLoopAux
  split
  · exact ⟨_, rfl⟩
  · exact ⟨_, rfl⟩

theorem dcStart_not_queryRoundEvs (K : Kernel α)
    (inbox : List (Gid × Delta α)) (st : QState α) :
    Ev.dcStart ∉ queryRoundEvs K inbox st := by
  unfold queryRoundEvs
  split <;> simp

theorem dcStart_not_queryIter_none (K : Kernel α) (dcFuel : Nat)
    (st : QState α) :
    Ev.dcStart ∉ (queryIter K none dcFuel st).2 := by
  unfold queryIter
  split
  · simp
  · split
    · split
      · intro h
        rcases List.mem_append.1 h with h | h
        · exact dcStart_not_queryRoundEvs K [] st h
        · simp at h
      · exact dcStart_not_queryRoundEvs K [] st
    · exact dcStart_not_queryRoundEvs K [] st

theorem dcStart_not_queryLoop (K : Kernel α) (dcFuel : Nat) :
    ∀ (fuel : Nat) (st : QState α),
      Ev.dcStart ∉ (queryLoop K none dcFuel fuel st).2
  | 0, st => by simp [queryLoop]
  | fuel + 1, st => by
    unfold queryLoop
    split
    · simp
    · intro h
      rcases List.mem_append.1 h with h | h
      · exact dcStart_not_queryIter_none K dcFuel st h
      · exact dcStart_not_queryLoop K dcFuel fuel _ h

theorem queryIter_evs_head (K : Kernel α) (upd : Option UpdateInput)
    (dcFuel : Nat) (st : QState α) (hex : st.exited = false) :
    (queryIter K upd dcFuel st).2.head? =
      some (Ev.ranges st.frag.inner st.frag.outer) := by
  unfold queryIter
  rw [if_neg (by simp [hex])]
  split
  · split
    · match upd with
      | some u => rfl
      | none => rfl
    · rfl
  · rfl

end Lemmas

/-! ### The claims -/

/-- C1: the claim states that after the incremental adjust completes,
the value array over inner vertices equals the one a from-scratch batch
run on the updated graph would yield.  On the S5 chain with a single
worker this fails: both runs terminate, but the incremental run leaves
the stale values 3 and 4 on vertices 4 and 5 (their reset was pending in
`next_modified` when the loop's quiescence vote — cast only after
`FinishARound` — was missed), while the from-scratch run leaves them
unreachable (⊥). -/
theorem c1_incremental_neq_scratch :
    incRun.1.exited = true ∧ scratchRun.1.exited = true ∧
    incRun.1.values 4 = some 3 ∧ incRun.1.values 5 = some 4 ∧
    scratchRun.1.values 4 = none ∧ scratchRun.1.values 5 = none ∧
    ¬ (∀ v ∈ chainNewFrag.inner,
        incRun.1.values v = scratchRun.1.values v) := by
  refine ⟨by decide, by decide, by decide, by decide, by decide,
    by decide, ?_⟩
  intro h
  exact absurd (h 4 (by decide)) (by decide)

/-- C2: the claim states that after the reset loop terminates, every
inner vertex transitively dependent on a deleted edge has identity
value.  On the S5 chain the loop terminates after one round having reset
only vertex 3: vertex 4 is transitively justified through the deleted
edge (2,3) via the parent chain 2→3→4, yet keeps its stale value 3. -/
theorem c2_reset_misses_dependent_vertex :
    TransDep chainFrag c2Entry.deltas [(2, 3)] 4 ∧
    c2Reset.2.2 = true ∧
    c2Reset.1.values 4 = some 3 ∧
    c2Reset.1.values 4 ≠ none ∧
    c2Reset.1.resetVs = [3] := by
  refine ⟨?_, by decide, by decide, by decide, by decide⟩
  exact TransDep.step 3 4
    (TransDep.seed 2 3 (by decide) (by decide))
    ⟨1, by decide⟩ (by decide)

/-- C3: the claim states that in every reset-loop round with a
non-empty `next_modified`, ForceContinue is invoked before FinishARound.
The source does the opposite (lines 163-167): in round 1 of the S5 run
the frontier is non-empty (vertex 4 is pending in the swapped-in
`curr_modified`), and the round's event trace shows FinishARound
strictly before ForceContinue. -/
theorem c3_finish_before_force :
    c3Round.1.curr = [4] ∧
    c3Round.2 = [Ev.startRound, Ev.finishRound, Ev.forceContinue] := by
  exact ⟨by decide, by decide⟩

section ClaimTheorems

variable {α : Type} [DecidableEq α]

/-- C4: during seeding of the incremental reset loop, a vertex `v` is
inserted into `curr_modified` iff some deleted edge `(u, v)` has `u`
among the gids of all locally present vertices, `v` an inner-vertex gid,
and `DeltaParentGid(v) = u`; and no communication occurs during seeding:
the trace of `deltaCompute` opens with the first round's StartARound,
before which no send is emitted. -/
theorem c4_seed_membership (frag : Fragment) (deltas : Gid → Delta α)
    (deleted : List (Gid × Gid)) :
    (∀ v, v ∈ seedCurr frag deltas deleted ↔
        ∃ u, (u, v) ∈ deleted ∧ u ∈ localGidSet frag ∧ v ∈ frag.inner ∧
          (deltas v).parent = some u) ∧
    (∀ (K : Kernel α) (upd : UpdateInput) (f : Nat) (st : QState α),
        (deltaComputeW K upd (f + 1) st).2.take 2 =
          [Ev.dcStart, Ev.startRound]) := by
  constructor
  · intro v
    unfold seedCurr
    rw [mem_seedFold]
    simp
  · intro K upd f st
    obtain ⟨t, ht⟩ := resetLoopAux_evs st.frag K.ident f
      ⟨st.values, st.deltas, seedCurr st.frag st.deltas upd.deleted, [],
       [], st.mm⟩
    show (Ev.dcStart :: ((dcReset K upd (f + 1) st).2.1 ++
        (dcKickoff K upd (f + 1) st).evs)).take 2 = _
    rw [show (dcReset K upd (f + 1) st).2.1 = Ev.startRound :: t from ht]
    rfl

/-- C5: in the kickoff round after rebuild, `Compute` is invoked for
every (old-range) inner vertex whose delta value differs from the
identity element, with no `CombineValueDelta` gate (for any kernel whose
`Compute` never degrades a delta back to identity, every such vertex
ends up in the list of `Compute` call sites); the round's sends are
exactly the non-identity outer deltas of the resulting `next_modified`;
and that set is transferred into the batch loop's `next_modified`. -/
theorem c5_kickoff_ungated (K : Kernel α) (upd : UpdateInput)
    (dcFuel : Nat) (st : QState α)
    (hmono : ∀ (u : Gid) (val : α) (d : Delta α) (f : Fragment)
        (ds : Gid → Delta α) (nx : List Gid) (v : Gid),
        (ds v).value ≠ K.ident →
          ((K.compute u val d f ds nx).1 v).value ≠ K.ident) :
    (∀ u ∈ st.frag.inner,
        ((dcCopy K upd dcFuel st).2 u).value ≠ K.ident →
          u ∈ (dcKickoff K upd dcFuel st).calls) ∧
    (∀ (v : Gid) (d : Delta α),
        (v, d) ∈ (dcKickoff K upd dcFuel st).sends ↔
          v ∈ (dcKickoff K upd dcFuel st).next ∧
            v ∈ upd.newFrag.outer ∧
            d = (dcKickoff K upd dcFuel st).deltas v ∧
            d.value ≠ K.ident) ∧
    (deltaComputeW K upd dcFuel st).1.next =
      (dcKickoff K upd dcFuel st).next := by
  refine ⟨?_, ?_, rfl⟩
  · intro u hu hval
    exact kickoffGo_superset K upd.newFrag (dcCopy K upd dcFuel st).1
      (fun u2 val d ds nx v => hmono u2 val d upd.newFrag ds nx v)
      st.frag.inner (dcCopy K upd dcFuel st).2 [] [] u hu hval
  · exact fun v d => mem_sendPhase K upd.newFrag.outer
      (dcKickoff K upd dcFuel st).deltas (dcKickoff K upd dcFuel st).next
      v d

omit [DecidableEq α] in
/-- C6: when the fragment is replaced, the values and deltas of every
inner vertex are carried forward unchanged into the new fragment's
state arrays (under the builder's guarantee that the inner range is
preserved), while every outer-vertex delta equals the identity after
`kernel.Init` and the copy-back. -/
theorem c6_rebuild_carries_state (K : Kernel α) (newFrag : Fragment)
    (oldInner : List Gid) (r : RState α)
    (hb : newFrag.inner = oldInner)
    (hdisj : ∀ v ∈ newFrag.outer, v ∉ newFrag.inner)
    (hinit : ∀ v, v ∉ oldInner →
        (K.initDeltas newFrag v).value = K.ident) :
    (∀ v ∈ newFrag.inner,
        (copyBackState K newFrag oldInner r).1 v = r.values v ∧
        (copyBackState K newFrag oldInner r).2 v = r.deltas v) ∧
    (∀ v ∈ newFrag.outer,
        ((copyBackState K newFrag oldInner r).2 v).value = K.ident) := by
  constructor
  · intro v hv
    have hv' : v ∈ oldInner := hb ▸ hv
    refine ⟨?_, ?_⟩
    · show (if v ∈ oldInner then r.values v else K.initValues newFrag v) =
        r.values v
      rw [if_pos hv']
    · show (if v ∈ oldInner then r.deltas v else K.initDeltas newFrag v) =
        r.deltas v
      rw [if_pos hv']
  · intro v hv
    have hv' : v ∉ oldInner := fun hm =>
      hdisj v hv (by rw [hb]; exact hm)
    show (if v ∈ oldInner then r.deltas v
        else K.initDeltas newFrag v).value = K.ident
    rw [if_neg hv']
    exact hinit v hv'

/-- C7: in step 4 of the batch traversal loop, a payload `(v, d)` is
enqueued by the outbound-send pass iff `v` is in
`next_modified ∩ outer_vertices` and `d = D[v]` has a value different
from the identity element; in particular identity-valued payloads are
never sent; and the `Query` round's sends are exactly this pass applied
to the round's post-compute state. -/
theorem c7_send_iff (K : Kernel α) (outer : List Gid)
    (deltas : Gid → Delta α) (next : List Gid) :
    (∀ (v : Gid) (d : Delta α),
        (v, d) ∈ sendPhase K outer deltas next ↔
          v ∈ next ∧ v ∈ outer ∧ d = deltas v ∧ d.value ≠ K.ident) ∧
    (∀ (v : Gid) (d : Delta α),
        (v, d) ∈ sendPhase K outer deltas next → d.value ≠ K.ident) ∧
    (∀ (inbox : List (Gid × Delta α)) (st : QState α),
        qSends K inbox st =
          sendPhase K st.frag.outer (qCompute K inbox st).2.1
            (qCompute K inbox st).2.2) := by
  refine ⟨mem_sendPhase K outer deltas next, ?_, fun _ _ => rfl⟩
  intro v d h
  exact ((mem_sendPhase K outer deltas next v d).1 h).2.2.2

/-- C8: when a `Query` round terminates the batch stage and no update
file is configured, the worker (unconditionally, hence in particular the
coordinator) reports the missing configuration and exits the loop
cleanly, keeping the batch values; and with no update configured the
incremental phase (`deltaCompute`) never runs in the whole `Query`. -/
theorem c8_missing_update_clean_exit (K : Kernel α) (dcFuel fuel : Nat)
    (frag : Fragment) (st : QState α)
    (h1 : st.exited = false) (h2 : st.batchStage = true)
    (h3 : toTerminate (queryRoundSt K [] st).mm = true) :
    ((queryIter K none dcFuel st).1.exited = true ∧
     (queryIter K none dcFuel st).2 =
       queryRoundEvs K [] st ++ [Ev.errLog] ∧
     (queryIter K none dcFuel st).1.values =
       (queryRoundSt K [] st).values) ∧
    Ev.dcStart ∉ (queryRun K none dcFuel fuel frag).2 := by
  have hiter : queryIter K none dcFuel st =
      ({ queryRoundSt K [] st with batchStage := false, exited := true },
       queryRoundEvs K [] st ++ [Ev.errLog]) := by
    unfold queryIter
    rw [if_neg (show ¬(st.exited = true) by simp [h1]), if_pos h3,
      if_pos (show (queryRoundSt K [] st).batchStage = true from h2)]
  refine ⟨⟨by rw [hiter], by rw [hiter], by rw [hiter]⟩, ?_⟩
  intro h
  rw [show (queryRun K none dcFuel fuel frag).2 =
      Ev.startRound :: Ev.initChannels :: Ev.finishRound ::
        (queryLoop K none dcFuel fuel
          { initQState K frag with
              mm := finishRound (startRound (initQState K frag).mm) }).2
    from rfl] at h
  simp only [List.mem_cons] at h
  rcases h with h | h | h | h
  · exact Ev.noConfusion h
  · exact Ev.noConfusion h
  · exact Ev.noConfusion h
  · exact dcStart_not_queryLoop K dcFuel fuel _ h

/-- C9: `Query` performs one empty message round (StartARound;
InitChannels; FinishARound) before entering the main batch loop, and no
send occurs in it, so by the BSP delivery rule (messages sent in round R
are delivered in round R+1, §5) the first real round's drain observes no
inbound payload. -/
theorem c9_initial_empty_round (K : Kernel α) (upd : Option UpdateInput)
    (dcFuel fuel : Nat) (frag : Fragment) :
    (queryRun K upd dcFuel fuel frag).2.take 3 =
      [Ev.startRound, Ev.initChannels, Ev.finishRound] ∧
    ∀ v : Gid, Ev.send v ∉ (queryRun K upd dcFuel fuel frag).2.take 3 := by
  refine ⟨rfl, ?_⟩
  intro v h
  rw [show (queryRun K upd dcFuel fuel frag).2.take 3 =
      [Ev.startRound, Ev.initChannels, Ev.finishRound] from rfl] at h
  simp at h

/-- C10: every `Query` round re-reads the vertex ranges from the
worker's current fragment (its trace opens with those ranges), and an
iteration that triggers `deltaCompute` installs the rebuilt fragment, so
the next iteration's ranges are the new fragment's. -/
theorem c10_ranges_reread (K : Kernel α) (u : UpdateInput) (dcFuel : Nat)
    (st : QState α) (hex : st.exited = false) (hbs : st.batchStage = true)
    (hterm : toTerminate (queryRoundSt K [] st).mm = true) :
    (queryIter K (some u) dcFuel st).2.head? =
      some (Ev.ranges st.frag.inner st.frag.outer) ∧
    (queryIter K (some u) dcFuel st).1.frag = u.newFrag ∧
    (queryIter K (some u) dcFuel
        ((queryIter K (some u) dcFuel st).1)).2.head? =
      some (Ev.ranges u.newFrag.inner u.newFrag.outer) := by
  have hiter : (queryIter K (some u) dcFuel st).1 =
      swapCN (deltaComputeW K u dcFuel
        { queryRoundSt K [] st with batchStage := false }).1 := by
    unfold queryIter
    rw [if_neg (show ¬(st.exited = true) by simp [hex]), if_pos hterm,
      if_pos (show (queryRoundSt K [] st).batchStage = true from hbs)]
  refine ⟨queryIter_evs_head K (some u) dcFuel st hex, ?_, ?_⟩
  · rw [hiter]
    rfl
  · have hex2 : ((queryIter K (some u) dcFuel st).1).exited = false := by
      rw [hiter]
      exact hex
    have h := queryIter_evs_head K (some u) dcFuel
      ((queryIter K (some u) dcFuel st).1) hex2
    rw [hiter] at h
    rw [hiter]
    exact h

end ClaimTheorems

/-! ### Witnesses for the conditional theorems -/

/-- Witness for C5: the SSSP kernel satisfies the no-degrade hypothesis,
and the theorem applies to the S5 kickoff. -/
theorem c5_kickoff_ungated_witness :
    (∀ (u : Gid) (val : Option Nat) (d : Delta (Option Nat)) (f : Fragment)
        (ds : Gid → Delta (Option Nat)) (nx : List Gid) (v : Gid),
        (ds v).value ≠ ssspK.ident →
          ((ssspK.compute u val d f ds nx).1 v).value ≠ ssspK.ident) ∧
    ((∀ u ∈ c2Entry.frag.inner,
        ((dcCopy ssspK chainUpd 8 c2Entry).2 u).value ≠ ssspK.ident →
          u ∈ (dcKickoff ssspK chainUpd 8 c2Entry).calls) ∧
     (∀ (v : Gid) (d : Delta (Option Nat)),
        (v, d) ∈ (dcKickoff ssspK chainUpd 8 c2Entry).sends ↔
          v ∈ (dcKickoff ssspK chainUpd 8 c2Entry).next ∧
            v ∈ chainUpd.newFrag.outer ∧
            d = (dcKickoff ssspK chainUpd 8 c2Entry).deltas v ∧
            d.value ≠ ssspK.ident) ∧
     (deltaComputeW ssspK chainUpd 8 c2Entry).1.next =
       (dcKickoff ssspK chainUpd 8 c2Entry).next) :=
  ⟨ssspMono, c5_kickoff_ungated ssspK chainUpd 8 c2Entry ssspMono⟩

/-- Off-source vertices get an identity-valued delta from the SSSP
kernel's `Init`. -/
theorem ssspInitOffSource (f : Fragment) (v : Gid)
    (hv : v ∉ ([1] : List Gid)) :
    (ssspK.initDeltas f v).value = ssspK.ident := by
  have hne : v ≠ 1 := fun h => hv (by simp [h])
  show (if v = 1 then (⟨some 0, some 1⟩ : Delta (Option Nat))
      else ⟨none, none⟩).value = none
  rw [if_neg hne]

/-- Witness for C6: a concrete rebuild with one inner and one outer
vertex satisfies the builder-contract hypotheses, and the theorem
applies. -/
theorem c6_rebuild_carries_state_witness :
    (c6Frag.inner = [1] ∧
     (∀ v ∈ c6Frag.outer, v ∉ c6Frag.inner) ∧
     (∀ v, v ∉ ([1] : List Gid) →
        (ssspK.initDeltas c6Frag v).value = ssspK.ident)) ∧
    ((∀ v ∈ c6Frag.inner,
        (copyBackState ssspK c6Frag [1] c6R).1 v = c6R.values v ∧
        (copyBackState ssspK c6Frag [1] c6R).2 v = c6R.deltas v) ∧
     (∀ v ∈ c6Frag.outer,
        ((copyBackState ssspK c6Frag [1] c6R).2 v).value = ssspK.ident)) :=
  ⟨⟨rfl, by decide, fun v hv => ssspInitOffSource c6Frag v hv⟩,
   c6_rebuild_carries_state ssspK c6Frag [1] c6R rfl (by decide)
     (fun v hv => ssspInitOffSource c6Frag v hv)⟩

/-- Witness for C8: on the trivial fragment the first round terminates
the batch stage, and with no update configured the worker reports and
exits. -/
theorem c8_missing_update_clean_exit_witness :
    ((initQState ssspK trivFrag).exited = false ∧
     (initQState ssspK trivFrag).batchStage = true ∧
     toTerminate (queryRoundSt ssspK []
       (initQState ssspK trivFrag)).mm = true) ∧
    (((queryIter ssspK none 2 (initQState ssspK trivFrag)).1.exited =
        true ∧
      (queryIter ssspK none 2 (initQState ssspK trivFrag)).2 =
        queryRoundEvs ssspK [] (initQState ssspK trivFrag) ++
          [Ev.errLog] ∧
      (queryIter ssspK none 2 (initQState ssspK trivFrag)).1.values =
        (queryRoundSt ssspK [] (initQState ssspK trivFrag)).values) ∧
     Ev.dcStart ∉ (queryRun ssspK none 2 3 trivFrag).2) :=
  ⟨⟨rfl, rfl, by decide⟩,
   c8_missing_update_clean_exit ssspK 2 3 trivFrag
     (initQState ssspK trivFrag) rfl rfl (by decide)⟩

/-- Witness for C10: on the trivial fragment the first round terminates
the batch stage, `deltaCompute` installs the rebuilt fragment, and the
following iteration reads its ranges. -/
theorem c10_ranges_reread_witness :
    ((initQState ssspK trivFrag).exited = false ∧
     (initQState ssspK trivFrag).batchStage = true ∧
     toTerminate (queryRoundSt ssspK []
       (initQState ssspK trivFrag)).mm = true) ∧
    ((queryIter ssspK (some trivUpd) 2
        (initQState ssspK trivFrag)).2.head? =
      some (Ev.ranges trivFrag.inner trivFrag.outer) ∧
     (queryIter ssspK (some trivUpd) 2
        (initQState ssspK trivFrag)).1.frag = trivUpd.newFrag ∧
     (queryIter ssspK (some trivUpd) 2
        ((queryIter ssspK (some trivUpd) 2
          (initQState ssspK trivFrag)).1)).2.head? =
      some (Ev.ranges trivUpd.newFrag.inner trivUpd.newFrag.outer)) :=
  ⟨⟨rfl, rfl, by decide⟩,
   c10_ranges_reread ssspK trivUpd 2 (initQState ssspK trivFrag)
     rfl rfl (by decide)⟩

end SumInc
